import Mathlib

/-!
Shallow embedding of the dividend-seeker persistence and query layer.

Sources embedded:
  * `src/scripts/sync_db.py` — `sync_stock`, `sync_snapshot`, `sync_dividend`,
    `log_scan`, `sync_from_json` (the record loop and shape selection).
  * `src/web/app.py` — `get_all_stocks`, the `/api/stock/<ticker>` detail
    lookup, and the `/api/stocks` sort comparators.
  * `src/scripts/scan_dividends.py` — the `sustainable` computation of
    `get_stock_data`.

Numeric feed values are modelled as rationals (`ℚ`); Python dictionary keys
that may be absent are `Option` fields; SQL `NULL` is `none`.  Python `or`
(truthiness) and SQL `COALESCE` are modelled separately since they differ on
zero and on the empty string.
-/

namespace DividendSeeker

/-- An external feed record (one entry of MAIN_LIST / a scan result).
Every key except `ticker` is optional; `52w_high`/`52w_low` are spelled
`w52_high`/`w52_low` because a Lean identifier cannot start with a digit.
`ocean_accessible` defaults to `false` in the source (`stock.get('ocean_accessible', False)`). -/
structure FeedRecord where
  ticker : Option String := none
  name : Option String := none
  sector : Option String := none
  industry : Option String := none
  currency : Option String := none
  ocean_market : Option String := none
  ocean_accessible : Bool := false
  price : Option ℚ := none
  dividend_yield : Option ℚ := none
  yield : Option ℚ := none
  dividend_rate : Option ℚ := none
  div_rate : Option ℚ := none
  payout_ratio : Option ℚ := none
  payout : Option ℚ := none
  pe_ratio : Option ℚ := none
  market_cap : Option ℚ := none
  w52_high : Option ℚ := none
  w52_low : Option ℚ := none
  change_6m : Option ℚ := none
  change_12m : Option ℚ := none
  dist_from_high : Option ℚ := none
  discount_from_high : Option ℚ := none
  max_drawdown_12m : Option ℚ := none
  beta : Option ℚ := none
  dividend_score : Option ℚ := none
  capital_score : Option ℚ := none
  sustainable : Option Bool := none
  ex_dividend_date : Option String := none
  deriving DecidableEq, Repr

/-- A row of the `stocks` table.  Timestamps are abstract `Nat` ticks supplied
by the caller in place of SQL `CURRENT_TIMESTAMP`. -/
structure StockRow where
  ticker : String
  name : Option String
  sector : Option String
  industry : Option String
  currency : Option String
  market : Option String
  ocean_accessible : Bool
  created_at : Nat
  updated_at : Nat
  deriving DecidableEq, Repr

/-- A row of the `snapshots` table, keyed by (ticker, scan_date). -/
structure SnapshotRow where
  ticker : String
  scan_date : String
  price : Option ℚ
  dividend_yield : Option ℚ
  dividend_rate : Option ℚ
  payout_ratio : Option ℚ
  pe_ratio : Option ℚ
  market_cap : Option ℚ
  week_52_high : Option ℚ
  week_52_low : Option ℚ
  change_6m : Option ℚ
  change_12m : Option ℚ
  dist_from_high : Option ℚ
  max_drawdown_12m : Option ℚ
  beta : Option ℚ
  dividend_score : Option ℚ
  capital_score : Option ℚ
  sustainable : Bool
  deriving DecidableEq, Repr

/-- A row of the `dividends` table, keyed by (ticker, ex_date). -/
structure DividendRow where
  ticker : String
  ex_date : String
  amount : Option ℚ
  currency : Option String
  deriving DecidableEq, Repr

/-- A row of the `scans` log table. -/
structure ScanRow where
  scan_date : String
  total_scanned : Nat
  candidates_found : Nat
  source : String
  deriving DecidableEq, Repr

/-- The SQLite database state: the four tables of `sync_db.py`. -/
structure DB where
  stocks : List StockRow := []
  snapshots : List SnapshotRow := []
  dividends : List DividendRow := []
  scans : List ScanRow := []
  deriving DecidableEq, Repr

/-- The empty database. -/
def emptyDB : DB := {}

/-- Python truthiness of an optional number: `None` and `0` are falsy. -/
def qTruthy : Option ℚ → Bool
  | none => false
  | some q => decide (q ≠ 0)

/-- Python `a or b` on optional numbers, as in
`stock.get('dividend_yield') or stock.get('yield')`. -/
def pyOrQ (a b : Option ℚ) : Option ℚ :=
  if qTruthy a then a else b

/-- Python truthiness of an optional string: `None` and `""` are falsy. -/
def sTruthy : Option String → Bool
  | none => false
  | some s => !s.isEmpty

/-- Python `a or b` on optional strings, as in
`market or stock.get('ocean_market')`. -/
def pyOrS (a b : Option String) : Option String :=
  if sTruthy a then a else b

/-- SQL `COALESCE(a, b)`: first non-NULL argument. -/
def coalesce {α : Type} : Option α → Option α → Option α
  | some v, _ => some v
  | none, b => b

/-- SQL upsert on a list-modelled table: update the row matching the unique
key if present, else append the fresh row. -/
def upsertBy {α : Type} (key : α → Bool) (upd : α → α) (ins : α) :
    List α → List α
  | [] => [ins]
  | r :: rs => if key r then upd r :: rs else r :: upsertBy key upd ins rs

/-- The `market` value bound into the `stocks` upsert:
`market or stock.get('ocean_market')` of `sync_stock`. -/
def marketValue (r : FeedRecord) (market : Option String) : Option String :=
  pyOrS market r.ocean_market

/-- The `ON CONFLICT(ticker)` key of the `stocks` table. -/
def stockKey (tk : String) (s : StockRow) : Bool := s.ticker == tk

/-- The fresh row the `stocks` INSERT creates (`CURRENT_TIMESTAMP` is the
abstract tick `t` for both timestamp columns). -/
def stockIns (r : FeedRecord) (mv : Option String) (tk : String) (t : Nat) :
    StockRow :=
  { ticker := tk, name := r.name, sector := r.sector, industry := r.industry,
    currency := r.currency, market := mv,
    ocean_accessible := r.ocean_accessible, created_at := t, updated_at := t }

/-- The `DO UPDATE SET` clause of the `stocks` upsert: every descriptive
field is overwritten from the excluded row, while
`market = COALESCE(excluded.market, stocks.market)`;
`created_at` is untouched and `updated_at` refreshed. -/
def stockUpd (r : FeedRecord) (mv : Option String) (t : Nat)
    (old : StockRow) : StockRow :=
  { old with name := r.name, sector := r.sector, industry := r.industry,
             currency := r.currency, market := coalesce mv old.market,
             ocean_accessible := r.ocean_accessible, updated_at := t }

/-- The database state after the `stocks` upsert for ticker `tk`. -/
def stockUpsertDB (db : DB) (r : FeedRecord) (mkt : Option String) (t : Nat)
    (tk : String) : DB :=
  { db with
      stocks := upsertBy (stockKey tk) (stockUpd r (marketValue r mkt) t)
        (stockIns r (marketValue r mkt) tk t) db.stocks }

/-- Python `sync_stock(conn, stock, market=None)`: upsert a stock row.
`stock['ticker']` raises when the key is absent. -/
def sync_stock (db : DB) (r : FeedRecord) (market : Option String) (t : Nat) :
    Except String DB :=
  match r.ticker with
  | none => Except.error "KeyError: ticker"
  | some tk => Except.ok (stockUpsertDB db r market t tk)

/-- The snapshot row built by `sync_snapshot`'s VALUES tuple, including the
Python `or` alias fallbacks and `stock.get('sustainable', True)`. -/
def snapshotOf (r : FeedRecord) (tk scanDate : String) : SnapshotRow :=
  { ticker := tk
    scan_date := scanDate
    price := r.price
    dividend_yield := pyOrQ r.dividend_yield r.yield
    dividend_rate := pyOrQ r.dividend_rate r.div_rate
    payout_ratio := pyOrQ r.payout_ratio r.payout
    pe_ratio := r.pe_ratio
    market_cap := r.market_cap
    week_52_high := r.w52_high
    week_52_low := r.w52_low
    change_6m := r.change_6m
    change_12m := r.change_12m
    dist_from_high := pyOrQ r.dist_from_high r.discount_from_high
    max_drawdown_12m := r.max_drawdown_12m
    beta := r.beta
    dividend_score := r.dividend_score
    capital_score := r.capital_score
    sustainable := r.sustainable.getD true }

/-- Python `sync_snapshot(conn, stock, scan_date)`: insert a snapshot keyed by
(ticker, scan_date); on conflict every column is set to the excluded value,
i.e. the existing row is fully overwritten. -/
def sync_snapshot (db : DB) (r : FeedRecord) (scanDate : String) :
    Except String DB :=
  match r.ticker with
  | none => Except.error "KeyError: ticker"
  | some tk =>
    let row := snapshotOf r tk scanDate
    Except.ok { db with
      snapshots := upsertBy
        (fun s => s.ticker == tk && s.scan_date == scanDate)
        (fun _ => row) row db.snapshots }

/-- Python `sync_dividend(conn, stock)`: return without touching the table when
`ex_dividend_date` is falsy (`None` or `""`); otherwise upsert keyed by
(ticker, ex_date) with `COALESCE` merge of `amount` and `currency`.
The amount bound is `stock.get('dividend_rate')` — no alias fallback here. -/
def sync_dividend (db : DB) (r : FeedRecord) : Except String DB :=
  match r.ex_dividend_date with
  | none => Except.ok db
  | some ed =>
    if ed.isEmpty then Except.ok db
    else
      match r.ticker with
      | none => Except.error "KeyError: ticker"
      | some tk =>
        let ins : DividendRow :=
          { ticker := tk, ex_date := ed, amount := r.dividend_rate,
            currency := r.currency }
        let upd : DividendRow → DividendRow := fun old =>
          { old with amount := coalesce r.dividend_rate old.amount,
                     currency := coalesce r.currency old.currency }
        Except.ok { db with
          dividends := upsertBy
            (fun d => d.ticker == tk && d.ex_date == ed) upd ins db.dividends }

/-- Python `log_scan(conn, scan_date, total, source)`: plain insert into `scans`;
the single `total` argument is bound to BOTH `total_scanned` and
`candidates_found`. -/
def log_scan (db : DB) (scanDate : String) (total : Nat) (source : String) :
    DB :=
  { db with scans := db.scans ++
      [{ scan_date := scanDate, total_scanned := total,
         candidates_found := total, source := source }] }

/-- A parsed MAIN_LIST document.  Each `Option (List _)` field is `some` when
the JSON key is present (possibly with an empty list) and `none` when absent,
matching Python `'key' in data` / `data.get(key, [])`. -/
structure Document where
  scan_date : Option String := none
  stocks : Option (List FeedRecord) := none
  candidates : Option (List FeedRecord) := none
  tier1_high_sustainable : Option (List FeedRecord) := none
  tier2_moderate_sustainable : Option (List FeedRecord) := none
  tier3_high_risk : Option (List FeedRecord) := none
  deriving DecidableEq, Repr

/-- The record list `sync_from_json` iterates over: the `candidates` list if
that key is present, else the concatenation of the three tier lists.
The `stocks` key is not consulted here. -/
def syncStocksOf (d : Document) : List FeedRecord :=
  match d.candidates with
  | some cs => cs
  | none =>
      d.tier1_high_sustainable.getD [] ++
      d.tier2_moderate_sustainable.getD [] ++
      d.tier3_high_risk.getD []

/-- One iteration of the `for stock in stocks` loop of `sync_from_json`:
the three upserts in sequence inside `try`.  A raise after a successful
earlier upsert keeps that upsert's effect (no per-record rollback), and the
returned flag says whether all three succeeded (`total += 1`). -/
def syncRecord (db : DB) (r : FeedRecord) (scanDate : String) (t : Nat) :
    DB × Bool :=
  match sync_stock db r none t with
  | Except.error _ => (db, false)
  | Except.ok db1 =>
    match sync_snapshot db1 r scanDate with
    | Except.error _ => (db1, false)
    | Except.ok db2 =>
      match sync_dividend db2 r with
      | Except.error _ => (db2, false)
      | Except.ok db3 => (db3, true)

/-- The whole record loop of `sync_from_json`: each record is processed under
`try/except`, failures are skipped, and the count of fully-succeeded records
is accumulated. -/
def syncLoop (db : DB) (rs : List FeedRecord) (scanDate : String) (t : Nat) :
    DB × Nat :=
  match rs with
  | [] => (db, 0)
  | r :: rest =>
    let step := syncRecord db r scanDate t
    let res := syncLoop step.1 rest scanDate t
    (res.1, if step.2 then res.2 + 1 else res.2)

/-- Function `sync_from_json` after the JSON file has been read and parsed into `d`:
pick the scan date (falling back to today's date), run the record loop, then
log the scan with the success count.  Returns the new database state and the
count. -/
def sync_from_json (db : DB) (d : Document) (today : String) (t : Nat)
    (source : String) : DB × Nat :=
  let scanDate := d.scan_date.getD today
  let res := syncLoop db (syncStocksOf d) scanDate t
  (log_scan res.1 scanDate res.2 source, res.2)

/-- Function `get_all_stocks` of `app.py`: the flat `stocks` list when that key is
present, else the concatenation of the three tier lists.  The `candidates`
key is never consulted. -/
def get_all_stocks (d : Document) : List FeedRecord :=
  match d.stocks with
  | some ss => ss
  | none =>
      d.tier1_high_sustainable.getD [] ++
      d.tier2_moderate_sustainable.getD [] ++
      d.tier3_high_risk.getD []

/-- Result of `/api/stock/<ticker>`: either the JSON body
`{current, history, dividends}` or the 404 response `{"error": "Stock not found"}`. -/
inductive DetailResult where
  | found : FeedRecord → List SnapshotRow → List DividendRow → DetailResult
  | notFound : DetailResult
  deriving DecidableEq, Repr

/-- The loop of `api_stock_detail`: scan the stock list for a matching
`s['ticker']` (raising when a record lacks the key) and return the record
as `current` with literal empty `history` and `dividends` lists; fall
through to the 404 body. -/
def stockDetailLoop (ticker : String) :
    List FeedRecord → Except String DetailResult
  | [] => Except.ok DetailResult.notFound
  | s :: rest =>
    match s.ticker with
    | none => Except.error "KeyError: ticker"
    | some tk =>
      if tk == ticker then Except.ok (DetailResult.found s [] [])
      else stockDetailLoop ticker rest

/-- Endpoint `api_stock_detail(ticker)` over a parsed candidates document. -/
def api_stock_detail (d : Document) (ticker : String) :
    Except String DetailResult :=
  stockDetailLoop ticker (get_all_stocks d)

/-- The sort key of `/api/stocks?sort=score`:
`(x.get('dividend_score', 0) + x.get('capital_score', 0), x.get('dividend_yield', 0))`. -/
def scoreKey (r : FeedRecord) : ℚ × ℚ :=
  (r.dividend_score.getD 0 + r.capital_score.getD 0, r.dividend_yield.getD 0)

/-- Strict lexicographic comparison of score keys, as Python compares the
key tuples. -/
def scoreKeyLt (a b : FeedRecord) : Bool :=
  decide ((scoreKey a).1 < (scoreKey b).1) ||
    (decide ((scoreKey a).1 = (scoreKey b).1) &&
     decide ((scoreKey a).2 < (scoreKey b).2))

/-- Stable insertion into a descending-sorted list: the new element is placed
before the first strictly smaller element, hence after any equal ones —
the order Python's stable `list.sort(key=..., reverse=True)` produces. -/
def insertDescBy {α : Type} (lt : α → α → Bool) (x : α) :
    List α → List α
  | [] => [x]
  | y :: ys => if lt y x then x :: y :: ys else y :: insertDescBy lt x ys

/-- Stable descending sort by a strict comparator (insertion sort, elements
inserted in original order). -/
def sortDescBy {α : Type} (lt : α → α → Bool) (l : List α) : List α :=
  l.foldl (fun acc x => insertDescBy lt x acc) []

/-- Python `filtered.sort(key=..., reverse=True)` for `sort=score` in `api_stocks`. -/
def sortByScore (l : List FeedRecord) : List FeedRecord :=
  sortDescBy scoreKeyLt l

/-- Constant of value 100 (percent units) named MAX PAYOUT in `scan_dividends.py` (percent units). -/
def maxPayoutPct : ℚ := 100

/-- The `sustainable` value `get_stock_data` of `scan_dividends.py` puts in
the record it returns: `payout_ratio <= MAX_PAYOUT_RATIO`. -/
def scanSustainable (payout_ratio : ℚ) : Bool :=
  decide (payout_ratio ≤ maxPayoutPct)

/-- Lookup of the stocks-table row for a ticker. -/
def findStock (db : DB) (tk : String) : Option StockRow :=
  db.stocks.find? (stockKey tk)

/-- Lookup of the snapshot row for (ticker, scan_date). -/
def findSnap (db : DB) (tk scanDate : String) : Option SnapshotRow :=
  db.snapshots.find? (fun s => s.ticker == tk && s.scan_date == scanDate)

/-- A stock row with the timestamp column cleared, to state "identical in
every column except updated_at". -/
def clearUpdatedAt (s : StockRow) : StockRow :=
  { s with updated_at := 0 }

/-- The database state `sync_snapshot` produces for a record whose ticker is
`tk`: the snapshot table with the (tk, d) row overwritten or inserted. -/
def snapUpsert (db : DB) (r : FeedRecord) (tk d : String) : DB :=
  { db with
      snapshots := upsertBy
        (fun s => s.ticker == tk && s.scan_date == d)
        (fun _ => snapshotOf r tk d) (snapshotOf r tk d) db.snapshots }

/-- A MAIN_LIST document carrying a flat `stocks` list. -/
def docFlat (sd : Option String) (L : List FeedRecord) : Document :=
  { scan_date := sd, stocks := some L }

/-- A MAIN_LIST document carrying the three tier lists (and possibly an
unused `candidates` key). -/
def docTiers (sd : Option String) (c : Option (List FeedRecord))
    (t1 t2 t3 : List FeedRecord) : Document :=
  { scan_date := sd, candidates := c, tier1_high_sustainable := some t1,
    tier2_moderate_sustainable := some t2, tier3_high_risk := some t3 }

/-! Concrete records and documents used by witnesses and counterexamples. -/

/-- Feed record with a present-but-zero `dividend_yield` and a non-zero
`yield` alias. -/
def recZeroYield : FeedRecord :=
  { ticker := some "T1", dividend_yield := some 0, yield := some 5 }

/-- The "AAA" record of the spec's end-to-end scenario. -/
def recAAA : FeedRecord :=
  { ticker := some "AAA", dividend_yield := some 6, payout_ratio := some 40 }

/-- The "BBB" record of the spec's end-to-end scenario. -/
def recBBB : FeedRecord :=
  { ticker := some "BBB", dividend_yield := some 4, payout_ratio := some 150 }

/-- A MAIN_LIST document carrying only a flat `candidates` list. -/
def docCandidates : Document := { candidates := some [recAAA] }

/-- A MAIN_LIST document carrying only a `tier1_high_sustainable` list. -/
def docTiered : Document := { tier1_high_sustainable := some [recAAA] }

/-- A MAIN_LIST document carrying only a flat `stocks` list. -/
def docStocks : Document := { stocks := some [recAAA] }

/-- A stored stock row for "AAA" whose `market` is already set. -/
def rowAAA : StockRow :=
  { ticker := "AAA", name := none, sector := none, industry := none,
    currency := none, market := some "sp500", ocean_accessible := false,
    created_at := 0, updated_at := 0 }

/-- A database holding just the "AAA" stock row. -/
def dbAAA : DB := { stocks := [rowAAA] }

/-- A malformed feed record lacking the mandatory `ticker` key. -/
def recNoTicker : FeedRecord := { dividend_yield := some 1 }

/-- Record with dividend score 3, capital score 4, yield 6 (sum 7). -/
def recScore34Y6 : FeedRecord :=
  { dividend_score := some 3, capital_score := some 4,
    dividend_yield := some 6 }

/-- Record with dividend score 3, capital score 3, yield 9 (sum 6). -/
def recScore33Y9 : FeedRecord :=
  { dividend_score := some 3, capital_score := some 3,
    dividend_yield := some 9 }

/-- Record with dividend score 3, capital score 4, yield 8 (sum 7). -/
def recScore34Y8 : FeedRecord :=
  { dividend_score := some 3, capital_score := some 4,
    dividend_yield := some 8 }

/-- Record with dividend score 4, capital score 3, yield 5 (sum 7). -/
def recScore43Y5 : FeedRecord :=
  { dividend_score := some 4, capital_score := some 3,
    dividend_yield := some 5 }

/-! Generic lemmas about the list-table combinators. -/

theorem coalesce_coalesce {α : Type} (a b : Option α) :
    coalesce a (coalesce a b) = coalesce a b := by
  cases a <;> rfl

theorem coalesce_self {α : Type} (a : Option α) : coalesce a a = a := by
  cases a <;> rfl

theorem pyOrQ_eq_ite (a b : Option ℚ) :
    pyOrQ a b = if a.getD 0 ≠ 0 then a else b := by
  rcases a with _ | v
  · simp [pyOrQ, qTruthy]
  · by_cases h : v = 0 <;> simp [pyOrQ, qTruthy, h]

theorem find?_upsertBy {α : Type} (k : α → Bool) (upd : α → α) (ins : α)
    (l : List α) (hins : k ins = true)
    (hupd : ∀ r, k r = true → k (upd r) = true) :
    List.find? k (upsertBy k upd ins l) = some ((List.find? k l).elim ins upd) := by
  induction l with
  | nil => simp [upsertBy, List.find?, hins]
  | cons r rs ih =>
    cases h : k r with
    | true =>
      simp [upsertBy, h, List.find?, hupd r h]
    | false =>
      simp [upsertBy, h, List.find?, ih]

theorem find?_upsertBy_replace {α : Type} (k : α → Bool) (row : α)
    (l : List α) (hk : k row = true) :
    List.find? k (upsertBy k (fun _ => row) row l) = some row := by
  have h := find?_upsertBy k (fun _ => row) row l hk (fun _ _ => hk)
  rw [h]
  cases List.find? k l <;> rfl

/-! Lemmas about the effect of each upsert on the tables it does not touch. -/

theorem sync_stock_frame (db db' : DB) (r : FeedRecord) (m : Option String)
    (t : Nat) (h : sync_stock db r m t = Except.ok db') :
    db'.snapshots = db.snapshots ∧ db'.dividends = db.dividends ∧
      db'.scans = db.scans := by
  cases htk : r.ticker with
  | none => simp [sync_stock, htk] at h
  | some tk =>
    simp [sync_stock, htk] at h
    subst h
    exact ⟨rfl, rfl, rfl⟩

theorem sync_snapshot_frame (db db' : DB) (r : FeedRecord) (d : String)
    (h : sync_snapshot db r d = Except.ok db') :
    db'.stocks = db.stocks ∧ db'.dividends = db.dividends ∧
      db'.scans = db.scans := by
  cases htk : r.ticker with
  | none => simp [sync_snapshot, htk] at h
  | some tk =>
    simp [sync_snapshot, htk] at h
    subst h
    exact ⟨rfl, rfl, rfl⟩

theorem sync_dividend_frame (db db' : DB) (r : FeedRecord)
    (h : sync_dividend db r = Except.ok db') :
    db'.stocks = db.stocks ∧ db'.snapshots = db.snapshots ∧
      db'.scans = db.scans := by
  cases hed : r.ex_dividend_date with
  | none =>
    simp [sync_dividend, hed] at h
    subst h; exact ⟨rfl, rfl, rfl⟩
  | some ed =>
    by_cases he : ed.isEmpty
    · simp [sync_dividend, hed, he] at h
      subst h; exact ⟨rfl, rfl, rfl⟩
    · cases htk : r.ticker with
      | none => simp [sync_dividend, hed, he, htk] at h
      | some tk =>
        simp [sync_dividend, hed, he, htk] at h
        subst h; exact ⟨rfl, rfl, rfl⟩

theorem syncRecord_scans (db : DB) (r : FeedRecord) (d : String) (t : Nat) :
    ((syncRecord db r d t).1).scans = db.scans := by
  unfold syncRecord
  cases h1 : sync_stock db r none t with
  | error e => rfl
  | ok db1 =>
    dsimp only
    have f1 := (sync_stock_frame db db1 r none t h1).2.2
    cases h2 : sync_snapshot db1 r d with
    | error e => exact f1
    | ok db2 =>
      dsimp only
      have f2 := (sync_snapshot_frame db1 db2 r d h2).2.2
      cases h3 : sync_dividend db2 r with
      | error e =>
        dsimp only
        rw [f2, f1]
      | ok db3 =>
        dsimp only
        have f3 := (sync_dividend_frame db2 db3 r h3).2.2
        rw [f3, f2, f1]

theorem syncLoop_scans (rs : List FeedRecord) (db : DB) (d : String)
    (t : Nat) : ((syncLoop db rs d t).1).scans = db.scans := by
  induction rs generalizing db with
  | nil => rfl
  | cons r rest ih =>
    simp only [syncLoop]
    rw [ih, syncRecord_scans]

/-- C7: for every record whose `ex_dividend_date` is null or absent, the
dividend upsert is a pure no-op: the returned database state is exactly the
input state, so the dividends table row count and every existing row are
unchanged. -/
theorem dividend_upsert_no_date_noop (db : DB) (r : FeedRecord)
    (h : r.ex_dividend_date = none) : sync_dividend db r = Except.ok db := by
  simp [sync_dividend, h]

/-- Witness for C7 at a concrete record lacking `ex_dividend_date`. -/
theorem dividend_upsert_no_date_noop_witness :
    recAAA.ex_dividend_date = none ∧
      sync_dividend emptyDB recAAA = Except.ok emptyDB :=
  ⟨rfl, dividend_upsert_no_date_noop emptyDB recAAA rfl⟩

/-- C10: every scan-log row written by a sync invocation stores the single
success count in both `total_scanned` and `candidates_found`: the scans table
after `sync_from_json` is the old table plus one row whose two count columns
both equal the returned success count. -/
theorem scan_log_equal_counts (db : DB) (d : Document) (today : String)
    (t : Nat) (src : String) :
    ((sync_from_json db d today t src).1).scans =
      db.scans ++
        [{ scan_date := d.scan_date.getD today,
           total_scanned := (sync_from_json db d today t src).2,
           candidates_found := (sync_from_json db d today t src).2,
           source := src }] := by
  simp only [sync_from_json, log_scan]
  rw [syncLoop_scans]

/-- C1 (corrected, counterexample): alias resolution does fall through past a
present-but-zero primary value: a record with `dividend_yield = 0` and
`yield = 5` is stored with snapshot `dividend_yield = 5`, not `0`, because
Python `or` treats zero as falsy. -/
theorem snapshot_alias_zero_falls_through :
    recZeroYield.dividend_yield = some 0 ∧
      (sync_snapshot emptyDB recZeroYield "2024-01-01").map
          (fun db => db.snapshots.map SnapshotRow.dividend_yield) =
        Except.ok [some 5] := by
  exact ⟨rfl, rfl⟩

/-- C1 (amended): for every record, the value stored under each aliased
snapshot field is the value of the first key (in the fixed priority order)
whose value is present AND non-zero; a missing or present-but-zero primary
value falls through to the alias.  The stored snapshot row is exactly
`snapshotOf`, whose aliased fields satisfy the truthiness-ordered selection. -/
theorem snapshot_alias_truthy_resolution (db : DB) (r : FeedRecord)
    (d tk : String) (h : r.ticker = some tk) :
    ∃ db', sync_snapshot db r d = Except.ok db' ∧
      findSnap db' tk d = some (snapshotOf r tk d) ∧
      (snapshotOf r tk d).dividend_yield =
        (if r.dividend_yield.getD 0 ≠ 0 then r.dividend_yield else r.yield) ∧
      (snapshotOf r tk d).dividend_rate =
        (if r.dividend_rate.getD 0 ≠ 0 then r.dividend_rate else r.div_rate) ∧
      (snapshotOf r tk d).payout_ratio =
        (if r.payout_ratio.getD 0 ≠ 0 then r.payout_ratio else r.payout) ∧
      (snapshotOf r tk d).dist_from_high =
        (if r.dist_from_high.getD 0 ≠ 0 then r.dist_from_high
         else r.discount_from_high) := by
  refine ⟨snapUpsert db r tk d, ?_, ?_, ?_, ?_, ?_, ?_⟩
  · simp [sync_snapshot, snapUpsert, h]
  · exact find?_upsertBy_replace _ _ _ (by simp [snapshotOf])
  · simp [snapshotOf, pyOrQ_eq_ite]
  · simp [snapshotOf, pyOrQ_eq_ite]
  · simp [snapshotOf, pyOrQ_eq_ite]
  · simp [snapshotOf, pyOrQ_eq_ite]

/-- Witness for C1 (amended) at the zero-yield record. -/
theorem snapshot_alias_truthy_resolution_witness :
    recZeroYield.ticker = some "T1" ∧
    (∃ db', sync_snapshot emptyDB recZeroYield "2024-01-01" = Except.ok db' ∧
      findSnap db' "T1" "2024-01-01" =
        some (snapshotOf recZeroYield "T1" "2024-01-01") ∧
      (snapshotOf recZeroYield "T1" "2024-01-01").dividend_yield =
        (if recZeroYield.dividend_yield.getD 0 ≠ 0 then
          recZeroYield.dividend_yield else recZeroYield.yield) ∧
      (snapshotOf recZeroYield "T1" "2024-01-01").dividend_rate =
        (if recZeroYield.dividend_rate.getD 0 ≠ 0 then
          recZeroYield.dividend_rate else recZeroYield.div_rate) ∧
      (snapshotOf recZeroYield "T1" "2024-01-01").payout_ratio =
        (if recZeroYield.payout_ratio.getD 0 ≠ 0 then
          recZeroYield.payout_ratio else recZeroYield.payout) ∧
      (snapshotOf recZeroYield "T1" "2024-01-01").dist_from_high =
        (if recZeroYield.dist_from_high.getD 0 ≠ 0 then
          recZeroYield.dist_from_high else recZeroYield.discount_from_high)) :=
  ⟨rfl, snapshot_alias_truthy_resolution emptyDB recZeroYield
    "2024-01-01" "T1" rfl⟩

/-- C3 (corrected, counterexample): syncing the bare record
`{ticker:"BBB", dividend_yield:4.0, payout_ratio:150}` — which carries no
`sustainable` key — stores `sustainable = true` even though its payout ratio
150 exceeds 100, because `sync_snapshot` stores
`stock.get('sustainable', True)` and never inspects the payout ratio. -/
theorem snapshot_sustainable_payout_ignored :
    recBBB.payout_ratio = some 150 ∧ ¬ ((150 : ℚ) ≤ 100) ∧
      (sync_snapshot emptyDB recBBB "2024-01-01").map
          (fun db => db.snapshots.map SnapshotRow.sustainable) =
        Except.ok [true] := by
  refine ⟨rfl, by decide, rfl⟩

/-- C3 (amended): the stored `sustainable` flag is the record's own
`sustainable` field, defaulting to true when the key is absent; the
payout-ratio convention holds exactly for records that carry the scanner's
computed flag `payout_ratio <= 100` (as every record built by
`get_stock_data` does), in which case the stored flag is true iff the payout
ratio does not exceed 100. -/
theorem snapshot_sustainable_default (db : DB) (r : FeedRecord)
    (d tk : String) (h : r.ticker = some tk) :
    ∃ db', sync_snapshot db r d = Except.ok db' ∧
      findSnap db' tk d = some (snapshotOf r tk d) ∧
      (snapshotOf r tk d).sustainable = r.sustainable.getD true ∧
      ∀ p : ℚ, r.sustainable = some (scanSustainable p) →
        ((snapshotOf r tk d).sustainable = true ↔ p ≤ maxPayoutPct) := by
  refine ⟨snapUpsert db r tk d, ?_, ?_, rfl, ?_⟩
  · simp [sync_snapshot, snapUpsert, h]
  · exact find?_upsertBy_replace _ _ _ (by simp [snapshotOf])
  · intro p hp
    simp [snapshotOf, hp, scanSustainable]

/-- Witness for C3 (amended) at the "AAA" record of the end-to-end scenario. -/
theorem snapshot_sustainable_default_witness :
    recAAA.ticker = some "AAA" ∧
    (∃ db', sync_snapshot emptyDB recAAA "2024-01-01" = Except.ok db' ∧
      findSnap db' "AAA" "2024-01-01" =
        some (snapshotOf recAAA "AAA" "2024-01-01") ∧
      (snapshotOf recAAA "AAA" "2024-01-01").sustainable =
        recAAA.sustainable.getD true ∧
      ∀ p : ℚ, recAAA.sustainable = some (scanSustainable p) →
        ((snapshotOf recAAA "AAA" "2024-01-01").sustainable = true ↔
          p ≤ maxPayoutPct)) :=
  ⟨rfl, snapshot_sustainable_default emptyDB recAAA "2024-01-01" "AAA" rfl⟩

/-- C9 (corrected, counterexample): the sync path reads a flat `candidates`
list, but the HTTP-facing `get_all_stocks` only recognises a flat `stocks`
list or the tier lists — a candidates-only document yields the empty
collection from the web layer while the same tiered content is served. -/
theorem candidates_shape_dropped_by_web :
    syncStocksOf docCandidates = [recAAA] ∧
      get_all_stocks docTiered = [recAAA] ∧
      get_all_stocks docCandidates = [] := by
  exact ⟨rfl, rfl, rfl⟩

/-- C9 (amended): the HTTP-facing layer yields the same stock collection for
a document carrying a flat `stocks` list as for one carrying the three tier
lists with the same content flattened in order; the `candidates` shape is
handled only by the sync path, not by the web layer. -/
theorem list_shape_support (L t1 t2 t3 : List FeedRecord)
    (c : Option (List FeedRecord)) (sd : Option String)
    (h : L = t1 ++ t2 ++ t3) :
    get_all_stocks (docFlat sd L) = L ∧
      get_all_stocks (docTiers sd c t1 t2 t3) = L := by
  constructor
  · rfl
  · simp [get_all_stocks, docTiers, h]

/-- Witness for C9 (amended) at concrete two-record content. -/
theorem list_shape_support_witness :
    ([recAAA, recBBB] : List FeedRecord) = [recAAA] ++ [recBBB] ++ [] ∧
    (get_all_stocks (docFlat none [recAAA, recBBB]) = [recAAA, recBBB] ∧
      get_all_stocks (docTiers none none [recAAA] [recBBB] []) =
        [recAAA, recBBB]) :=
  ⟨rfl, list_shape_support [recAAA, recBBB] [recAAA] [recBBB] [] none none rfl⟩


theorem clearUpdatedAt_upd_upd (r : FeedRecord) (mv : Option String)
    (t1 t2 : Nat) (s : StockRow) :
    clearUpdatedAt (stockUpd r mv t2 (stockUpd r mv t1 s)) =
      clearUpdatedAt (stockUpd r mv t1 s) := by
  cases mv <;> rfl

theorem clearUpdatedAt_upd_ins (r : FeedRecord) (mv : Option String)
    (t1 t2 : Nat) (tk : String) :
    clearUpdatedAt (stockUpd r mv t2 (stockIns r mv tk t1)) =
      clearUpdatedAt (stockIns r mv tk t1) := by
  cases mv <;> rfl

theorem stock_upsert_twice_clear (r : FeedRecord) (mv : Option String)
    (t1 t2 : Nat) (tk : String) (l : List StockRow) :
    (upsertBy (stockKey tk) (stockUpd r mv t2) (stockIns r mv tk t2)
        (upsertBy (stockKey tk) (stockUpd r mv t1)
          (stockIns r mv tk t1) l)).map clearUpdatedAt =
      (upsertBy (stockKey tk) (stockUpd r mv t1)
        (stockIns r mv tk t1) l).map clearUpdatedAt := by
  induction l with
  | nil =>
    have hk : stockKey tk (stockIns r mv tk t1) = true := by
      simp [stockKey, stockIns]
    simp [upsertBy, hk, clearUpdatedAt_upd_ins]
  | cons s ss ih =>
    cases hs : stockKey tk s with
    | true =>
      have hs2 : stockKey tk (stockUpd r mv t1 s) = true := hs
      simp [upsertBy, hs, hs2, clearUpdatedAt_upd_upd]
    | false =>
      simp [upsertBy, hs, ih]

/-- C2: once a stored stock row has a non-null `market`, a later upsert for
the same ticker whose bound market value is null (both the `market` argument
and the record's `ocean_market` missing) leaves the stored `market`
unchanged, while `name`, `sector`, `industry` and `currency` are overwritten
with the new record's values. -/
theorem stock_market_null_preserved (db : DB) (r : FeedRecord)
    (mkt : Option String) (t : Nat) (tk m : String) (s0 : StockRow)
    (h : r.ticker = some tk) (hmv : marketValue r mkt = none)
    (hfind : findStock db tk = some s0) (hm : s0.market = some m) :
    ∃ db', sync_stock db r mkt t = Except.ok db' ∧
      ∃ s1, findStock db' tk = some s1 ∧ s1.market = some m ∧
        s1.name = r.name ∧ s1.sector = r.sector ∧
        s1.industry = r.industry ∧ s1.currency = r.currency := by
  have hk : stockKey tk (stockIns r (marketValue r mkt) tk t) = true := by
    simp [stockKey, stockIns]
  have hf := find?_upsertBy (stockKey tk) (stockUpd r (marketValue r mkt) t)
    (stockIns r (marketValue r mkt) tk t) db.stocks hk (fun s hs => hs)
  refine ⟨stockUpsertDB db r mkt t tk, by simp [sync_stock, h],
    stockUpd r (marketValue r mkt) t s0, ?_, ?_, rfl, rfl, rfl, rfl⟩
  · unfold findStock stockUpsertDB
    dsimp only
    rw [hf]
    unfold findStock at hfind
    rw [hfind]
    rfl
  · simp [stockUpd, hmv, hm, coalesce]

/-- Witness for C2: the "AAA" row holds market "sp500"; upserting a record
with no market information keeps it. -/
theorem stock_market_null_preserved_witness :
    recAAA.ticker = some "AAA" ∧ marketValue recAAA none = none ∧
    findStock dbAAA "AAA" = some rowAAA ∧ rowAAA.market = some "sp500" ∧
    (∃ db', sync_stock dbAAA recAAA none 7 = Except.ok db' ∧
      ∃ s1, findStock db' "AAA" = some s1 ∧ s1.market = some "sp500" ∧
        s1.name = recAAA.name ∧ s1.sector = recAAA.sector ∧
        s1.industry = recAAA.industry ∧ s1.currency = recAAA.currency) :=
  ⟨rfl, rfl, rfl, rfl,
    stock_market_null_preserved dbAAA recAAA none 7 "AAA" "sp500" rowAAA
      rfl rfl rfl rfl⟩

/-- C6: performing the stock upsert twice in succession with the same record
and market argument leaves the stocks table identical to its state after the
first upsert in every column except `updated_at` (stated by clearing the
`updated_at` column on both sides). -/
theorem stock_upsert_idempotent (db : DB) (r : FeedRecord)
    (mkt : Option String) (t1 t2 : Nat) (tk : String)
    (h : r.ticker = some tk) :
    ∃ db1 db2, sync_stock db r mkt t1 = Except.ok db1 ∧
      sync_stock db1 r mkt t2 = Except.ok db2 ∧
      db2.stocks.map clearUpdatedAt = db1.stocks.map clearUpdatedAt := by
  refine ⟨stockUpsertDB db r mkt t1 tk,
    stockUpsertDB (stockUpsertDB db r mkt t1 tk) r mkt t2 tk,
    by simp [sync_stock, h], by simp [sync_stock, h], ?_⟩
  unfold stockUpsertDB
  dsimp only
  exact stock_upsert_twice_clear r (marketValue r mkt) t1 t2 tk db.stocks

/-- Witness for C6 at the "AAA" record on the empty database. -/
theorem stock_upsert_idempotent_witness :
    recAAA.ticker = some "AAA" ∧
    (∃ db1 db2, sync_stock emptyDB recAAA none 0 = Except.ok db1 ∧
      sync_stock db1 recAAA none 1 = Except.ok db2 ∧
      db2.stocks.map clearUpdatedAt = db1.stocks.map clearUpdatedAt) :=
  ⟨rfl, stock_upsert_idempotent emptyDB recAAA none 0 1 "AAA" rfl⟩


theorem syncRecord_fail (db : DB) (r : FeedRecord) (d : String) (t : Nat)
    (h : r.ticker = none) : syncRecord db r d t = (db, false) := by
  simp [syncRecord, sync_stock, h]

theorem syncRecord_snd (db : DB) (r : FeedRecord) (d : String) (t : Nat) :
    (syncRecord db r d t).2 = r.ticker.isSome := by
  cases htk : r.ticker with
  | none => simp [syncRecord, sync_stock, htk]
  | some tk =>
    cases hed : r.ex_dividend_date with
    | none =>
      simp [syncRecord, sync_stock, sync_snapshot, sync_dividend, htk, hed]
    | some ed =>
      by_cases he : ed.isEmpty <;>
        simp [syncRecord, sync_stock, sync_snapshot, sync_dividend,
          htk, hed, he]

/-- C5: a record whose processing raises (one with no `ticker` key) is
skipped with the database untouched while every subsequent record is still
processed, and the loop's aggregate count equals the number of records whose
three upserts all succeed — which is exactly the records carrying a ticker. -/
theorem sync_failure_isolation (db : DB) (bad : FeedRecord)
    (rest rs : List FeedRecord) (d : String) (t : Nat)
    (h : bad.ticker = none) :
    syncLoop db (bad :: rest) d t = syncLoop db rest d t ∧
      (syncLoop db rs d t).2 =
        (rs.filter (fun r => r.ticker.isSome)).length := by
  constructor
  · have hb := syncRecord_fail db bad d t h
    simp [syncLoop, hb]
  · induction rs generalizing db with
    | nil => rfl
    | cons r rest2 ih =>
      simp only [syncLoop, List.filter_cons]
      cases htk : r.ticker.isSome with
      | true =>
        have hs := syncRecord_snd db r d t
        rw [htk] at hs
        simp [hs, htk, ih]
      | false =>
        have hs := syncRecord_snd db r d t
        rw [htk] at hs
        simp [hs, htk, ih]

/-- Witness for C5: a ticker-less record before "AAA" is skipped and the
count over the mixed list is 1. -/
theorem sync_failure_isolation_witness :
    recNoTicker.ticker = none ∧
    (syncLoop emptyDB (recNoTicker :: [recAAA]) "2024-01-01" 0 =
        syncLoop emptyDB [recAAA] "2024-01-01" 0 ∧
      (syncLoop emptyDB [recNoTicker, recAAA] "2024-01-01" 0).2 =
        ([recNoTicker, recAAA].filter
          (fun r => r.ticker.isSome)).length) :=
  ⟨rfl, sync_failure_isolation emptyDB recNoTicker [recAAA]
    [recNoTicker, recAAA] "2024-01-01" 0 rfl⟩

theorem scoreKeyLt_asymm (a b : FeedRecord) (h : scoreKeyLt b a = true) :
    scoreKeyLt a b = false := by
  rw [Bool.eq_false_iff]
  intro hab
  simp only [scoreKeyLt, Bool.or_eq_true, Bool.and_eq_true,
    decide_eq_true_eq] at h hab
  rcases h with h1 | ⟨h1, h2⟩ <;> rcases hab with h3 | ⟨h3, h4⟩ <;> linarith

/-- C8: under `sort=score`, a record whose key
(dividend_score + capital_score, dividend_yield) is lexicographically above
another's is ranked above it whichever order the two arrive in: strictly
larger score sums win, and between equal sums the larger yield wins. -/
theorem score_sort_order (a b : FeedRecord) (h : scoreKeyLt b a = true) :
    sortByScore [a, b] = [a, b] ∧ sortByScore [b, a] = [a, b] := by
  have hab := scoreKeyLt_asymm a b h
  constructor
  · simp [sortByScore, sortDescBy, insertDescBy, hab]
  · simp [sortByScore, sortDescBy, insertDescBy, h]


theorem scoreKeyLt_sum_ex : scoreKeyLt recScore33Y9 recScore34Y6 = true := by
  norm_num [scoreKeyLt, scoreKey, recScore33Y9, recScore34Y6]

theorem scoreKeyLt_tie_ex : scoreKeyLt recScore43Y5 recScore34Y8 = true := by
  norm_num [scoreKeyLt, scoreKey, recScore43Y5, recScore34Y8]

/-- Witness for C8: (div=3,cap=4,yield=6) ranks above (div=3,cap=3,yield=9),
and of two sum-7 records the yield-8 one ranks above the yield-5 one. -/
theorem score_sort_order_witness :
    (scoreKeyLt recScore33Y9 recScore34Y6 = true ∧
      sortByScore [recScore34Y6, recScore33Y9] =
        [recScore34Y6, recScore33Y9] ∧
      sortByScore [recScore33Y9, recScore34Y6] =
        [recScore34Y6, recScore33Y9]) ∧
    (scoreKeyLt recScore43Y5 recScore34Y8 = true ∧
      sortByScore [recScore34Y8, recScore43Y5] =
        [recScore34Y8, recScore43Y5] ∧
      sortByScore [recScore43Y5, recScore34Y8] =
        [recScore34Y8, recScore43Y5]) :=
  ⟨⟨scoreKeyLt_sum_ex,
    (score_sort_order recScore34Y6 recScore33Y9 scoreKeyLt_sum_ex).1,
    (score_sort_order recScore34Y6 recScore33Y9 scoreKeyLt_sum_ex).2⟩,
   ⟨scoreKeyLt_tie_ex,
    (score_sort_order recScore34Y8 recScore43Y5 scoreKeyLt_tie_ex).1,
    (score_sort_order recScore34Y8 recScore43Y5 scoreKeyLt_tie_ex).2⟩⟩

theorem stockDetailLoop_spec (tk : String) (l : List FeedRecord)
    (hall : ∀ s ∈ l, s.ticker.isSome) :
    (∃ s, stockDetailLoop tk l = Except.ok (DetailResult.found s [] []) ∧
      s ∈ l ∧ s.ticker = some tk) ∨
    (stockDetailLoop tk l = Except.ok DetailResult.notFound ∧
      ∀ s ∈ l, s.ticker ≠ some tk) := by
  induction l with
  | nil => exact Or.inr ⟨rfl, by simp⟩
  | cons s rest ih =>
    have hs := hall s (by simp)
    cases htk : s.ticker with
    | none => rw [htk] at hs; simp at hs
    | some t0 =>
      by_cases he : t0 = tk
      · refine Or.inl ⟨s, ?_, by simp, by rw [htk, he]⟩
        simp [stockDetailLoop, htk, he]
      · have hrest := ih (fun x hx => hall x (by simp [hx]))
        rcases hrest with ⟨s1, h1, h2, h3⟩ | ⟨h1, h2⟩
        · exact Or.inl ⟨s1, by simp [stockDetailLoop, htk, he, h1],
            by simp [h2], h3⟩
        · refine Or.inr ⟨by simp [stockDetailLoop, htk, he, h1], ?_⟩
          intro x hx
          rcases List.mem_cons.mp hx with hx | hx
          · subst hx; rw [htk]; simp [he]
          · exact h2 x hx

/-- C4 (corrected, counterexample): the ticker-detail endpoint reads the
candidates document, not the snapshot store: a present ticker is returned
with literally empty `history` and `dividends` lists (never the synced
snapshots), and an unknown ticker yields the distinguishable not-found
result. -/
theorem ticker_detail_history_empty :
    api_stock_detail docStocks "AAA" =
        Except.ok (DetailResult.found recAAA [] []) ∧
      api_stock_detail docStocks "ZZZ" = Except.ok DetailResult.notFound := by
  exact ⟨rfl, rfl⟩

/-- C4 (amended): for a document whose records all carry tickers, the
ticker-detail query returns the matching record as `current` with empty
history and dividend lists when the ticker is present, and the
distinguishable not-found result (HTTP 404 with an error body) — never an
empty success object — when it is not. -/
theorem ticker_detail_shape (d : Document) (tk : String)
    (hall : ∀ s ∈ get_all_stocks d, s.ticker.isSome) :
    (∃ s, api_stock_detail d tk = Except.ok (DetailResult.found s [] []) ∧
      s ∈ get_all_stocks d ∧ s.ticker = some tk) ∨
    (api_stock_detail d tk = Except.ok DetailResult.notFound ∧
      ∀ s ∈ get_all_stocks d, s.ticker ≠ some tk) :=
  stockDetailLoop_spec tk (get_all_stocks d) hall

/-- Witness for C4 (amended) at the one-record document. -/
theorem ticker_detail_shape_witness :
    (∀ s ∈ get_all_stocks docStocks, s.ticker.isSome) ∧
    ((∃ s, api_stock_detail docStocks "AAA" =
        Except.ok (DetailResult.found s [] []) ∧
      s ∈ get_all_stocks docStocks ∧ s.ticker = some "AAA") ∨
    (api_stock_detail docStocks "AAA" = Except.ok DetailResult.notFound ∧
      ∀ s ∈ get_all_stocks docStocks, s.ticker ≠ some "AAA")) :=
  ⟨by decide, ticker_detail_shape docStocks "AAA" (by decide)⟩

end DividendSeeker
